import Mathlib

/-!
Formal model of the MCP launch-spec resolution core of `kysion/codex`,
embedded from `codex-rs/core/src/config_types.rs` (custom
`McpServerConfig::deserialize` and the shell environment policy
conversion) and `codex-rs/core/src/mcp_presets.rs` (the static preset
registry).  Rust `HashMap<String, String>` values are modelled as
association lists with unique keys; `std::time::Duration` as a pair of
seconds and nanoseconds; the `f64` seconds field of the raw
configuration as an exact rational (NaN and infinity are outside the
model, which otherwise follows `Duration::try_from_secs_f64`:
rejection of negative and overflowing values, rounding to the nearest
nanosecond with ties to even); serialization of a duration via
`as_secs_f64` is modelled by rounding its exact value in seconds to
the nearest binary64 value.
-/

deriving instance DecidableEq for Except

/-- Model of Rust `std::time::Duration`: whole seconds plus a nanosecond part. -/
structure Duration where
  secs : Nat
  nanos : Nat
  deriving DecidableEq

/-- The error cases surfaced by `McpServerConfig::deserialize`:
`unknown MCP server preset '…'`, `missing field command`, and the
serde-wrapped error of `Duration::try_from_secs_f64`. -/
inductive DeserializeError where
  | unknownPreset (id : String)
  | missingCommand
  | invalidDuration
  deriving DecidableEq

def NANOS_PER_SEC : Nat := 1000000000

/-- Round the rational `num * 1000000000 / den` to the nearest
integer, ties going to the even integer (the rounding used by
`Duration::try_from_secs_f64`), computed by integer arithmetic: the
floor is `(num * 1000000000).fdiv den` and twice the remainder is
compared with `den` to decide the direction of rounding. -/
def roundNanosHalfEven (num : Int) (den : Nat) : Int :=
  let N := num * (NANOS_PER_SEC : Int)
  let f := N.fdiv (den : Int)
  let r2 := 2 * (N - f * (den : Int))
  if r2 < (den : Int) then f
  else if (den : Int) < r2 then f + 1
  else if f % 2 = 0 then f else f + 1

/-- Model of `Duration::try_from_secs_f64`: fails on a negative value
and on a value that overflows `Duration` (whose seconds are a `u64`);
otherwise rounds the value, expressed in nanoseconds, to the nearest
integer with ties to even. -/
def Duration.tryFromSecsF64 (secs : Rat) : Except DeserializeError Duration :=
  if secs < 0 then .error .invalidDuration
  else
    let n : Int := roundNanosHalfEven secs.num secs.den
    if (2 ^ 64 : Int) * (NANOS_PER_SEC : Int) ≤ n then .error .invalidDuration
    else .ok ⟨n.toNat / NANOS_PER_SEC, n.toNat % NANOS_PER_SEC⟩

/-- Round the rational `N / d` (with `d` positive) to the nearest
integer, ties going to the even integer, by integer arithmetic. -/
def roundIntHalfEven (N d : Int) : Int :=
  let f := N.fdiv d
  let r2 := 2 * (N - f * d)
  if r2 < d then f
  else if d < r2 then f + 1
  else if f % 2 = 0 then f else f + 1

/-- Greatest exponent `e` with `2 ^ e ≤ num / den` (both positive),
searched downward from `e = 65`; `-100` when none is found above it.
Every nonzero value a duration serializes to lies in
`[2 ^ (-30), 2 ^ 65)`, so the search range covers the whole domain of
use with room to spare. -/
def f64ExpSearch (num den : Int) : Nat → Int
  | 0 => -100
  | k + 1 =>
    let e : Int := (k : Int) - 100
    if (if 0 ≤ e then 2 ^ e.toNat * den ≤ num else den ≤ num * 2 ^ (-e).toNat)
    then e
    else f64ExpSearch num den k

/-- Model of rounding a positive rational to the nearest IEEE-754
binary64 value: locate the binade `[2 ^ e, 2 ^ (e + 1))`, round the
significand `q * 2 ^ (52 - e)` to the nearest integer with ties to
even, and rebuild the value.  Faithful on the values durations
serialize to, which stay far from the subnormal and overflow ranges;
nonpositive inputs are returned unchanged (the serializer never
produces them). -/
def roundRatToF64 (q : Rat) : Rat :=
  if q ≤ 0 then q
  else
    let e := f64ExpSearch q.num (q.den : Int) 166
    let s := 52 - e
    let m := if 0 ≤ s then roundIntHalfEven (q.num * 2 ^ s.toNat) (q.den : Int)
      else roundIntHalfEven q.num ((q.den : Int) * 2 ^ (-s).toNat)
    if 0 ≤ e - 52 then ((m * 2 ^ (e - 52).toNat : Int) : Rat)
    else mkRat m (2 ^ (52 - e).toNat)

/-- Model of `Duration::from_millis`. -/
def Duration.fromMillis (ms : Nat) : Duration :=
  ⟨ms / 1000, ms % 1000 * 1000000⟩

/-- Model of `Duration::from_secs`. -/
def Duration.fromSecs (s : Nat) : Duration := ⟨s, 0⟩

/-- The exact value of a duration in seconds, as a rational:
`secs + nanos / 1e9`.  This is a mathematical helper; the serializer's
`as_secs_f64` is modelled by `Duration.asSecsF64Rat`, which rounds
this value to the nearest binary64. -/
def Duration.asSecsRat (d : Duration) : Rat :=
  mkRat ((d.secs * NANOS_PER_SEC + d.nanos : Nat) : Int) NANOS_PER_SEC

/-- Model of `Duration::as_secs_f64`: the exact value in seconds
rounded to the nearest binary64 value (round to nearest, ties to
even). -/
def Duration.asSecsF64Rat (d : Duration) : Rat :=
  roundRatToF64 d.asSecsRat

/-- Whether serializing the duration as f64 seconds is lossless: the
binary64 rounding leaves its exact value unchanged. -/
def Duration.f64ExactB (d : Duration) : Bool :=
  decide (d.asSecsF64Rat = d.asSecsRat)

/-- Well-formedness of a duration produced from `u64` seconds and a
sub-second nanosecond part, as guaranteed by Rust `Duration`. -/
def Duration.wfb (d : Duration) : Bool :=
  decide (d.nanos < NANOS_PER_SEC) && decide (d.secs < 2 ^ 64)

/-- Lookup in the association-list model of `HashMap<String, String>`. -/
def lookupKV : List (String × String) → String → Option String
  | [], _ => none
  | p :: rest, k => if p.1 = k then some p.2 else lookupKV rest k

/-- Model of `HashMap::insert` on the association-list representation:
replace the value of an existing key in place, else append the binding. -/
def insertKV : List (String × String) → String → String → List (String × String)
  | [], k, v => [(k, v)]
  | p :: rest, k, v => if p.1 = k then (p.1, v) :: rest else p :: insertKV rest k v

/-- Structure `McpServerConfig` from `config_types.rs`: the resolved launch
specification (command, arguments, environment, timeouts). -/
structure McpServerConfig where
  preset : Option String
  command : String
  args : List String
  env : Option (List (String × String))
  startup_timeout_sec : Option Duration
  tool_timeout_sec : Option Duration
  deriving DecidableEq

/-- Structure `McpServerPreset` from `mcp_presets.rs`. -/
structure McpServerPreset where
  id : String
  label : String
  description : String
  command : String
  args : List String
  env : List (String × String)
  startup_timeout : Option Duration
  tool_timeout : Option Duration
  deriving DecidableEq

/-- Method `McpServerPreset::to_config`: the environment slice becomes an
optional map, `None` when the slice is empty. -/
def McpServerPreset.to_config (p : McpServerPreset) : McpServerConfig :=
  { preset := some p.id
    command := p.command
    args := p.args
    env := if p.env = [] then none else some p.env
    startup_timeout_sec := p.startup_timeout
    tool_timeout_sec := p.tool_timeout }

/-- The `CHROME_DEVTOOLS` preset constant from `mcp_presets.rs`. -/
def CHROME_DEVTOOLS : McpServerPreset :=
  { id := "chrome_devtools"
    label := "Chrome DevTools"
    description := "Launch the Chrome DevTools MCP server via npx for debugging frontends."
    command := "npx"
    args := ["chrome-devtools-mcp@latest", "--stdio"]
    env := []
    startup_timeout := some (Duration.fromSecs 45)
    tool_timeout := some (Duration.fromSecs 120) }

/-- The static `PRESETS` registry from `mcp_presets.rs`. -/
def PRESETS : List McpServerPreset := [CHROME_DEVTOOLS]

/-- Function `builtin_mcp_server_presets` from `mcp_presets.rs`. -/
def builtin_mcp_server_presets : List McpServerPreset := PRESETS

/-- Function `find_mcp_server_preset`: exact, case-sensitive lookup by identifier. -/
def find_mcp_server_preset (id : String) : Option McpServerPreset :=
  PRESETS.find? (fun preset => preset.id == id)

/-- Structure `RawMcpServerConfig`, the intermediate struct parsed inside
`McpServerConfig::deserialize`.  The startup timeout may be supplied as
float seconds (modelled as an exact rational) or integer milliseconds;
the tool timeout has already been converted to a duration by the
`option_duration_secs` field adapter of the raw struct. -/
structure RawMcpServerConfig where
  preset : Option String
  command : Option String
  args : List String
  env : Option (List (String × String))
  startup_timeout_sec : Option Rat
  startup_timeout_ms : Option Nat
  tool_timeout_sec : Option Duration
  deriving DecidableEq

/-- The `startup_timeout_override` computation (config_types.rs lines
78–85): seconds win over milliseconds when both are present, and the
seconds value is converted fallibly. -/
def startupTimeoutOverride :
    Option Rat → Option Nat → Except DeserializeError (Option Duration)
  | some sec, _ => (Duration.tryFromSecsF64 sec).map some
  | none, some ms => .ok (some (Duration.fromMillis ms))
  | none, none => .ok none

/-- The `preset_config` computation (lines 87–95): look up a named
preset, failing with the unknown-preset error when absent. -/
def presetConfigFor : Option String → Except DeserializeError (Option McpServerConfig)
  | some presetId =>
      match find_mcp_server_preset presetId with
      | some preset => .ok (some preset.to_config)
      | none => .error (.unknownPreset presetId)
  | none => .ok none

/-- The `command_value` computation (lines 97–106): the preset command
seeds the value, a missing command is an error only when there is no
preset, and an explicit command overrides. -/
def resolveCommand (presetConfig : Option McpServerConfig) (command : Option String) :
    Except DeserializeError String :=
  match presetConfig with
  | some cfg => .ok (match command with | some cmd => cmd | none => cfg.command)
  | none =>
      match command with
      | some cmd => .ok cmd
      | none => .error .missingCommand

/-- The `args_value` computation (lines 108–114): a non-empty explicit
list replaces the preset default. -/
def resolveArgs (presetConfig : Option McpServerConfig) (args : List String) : List String :=
  if args = [] then (match presetConfig with | some cfg => cfg.args | none => []) else args

/-- The `env_value` computation (lines 116–128): start from the preset
map (empty when absent); an override replaces an empty starting map
wholesale and is otherwise merged in key by key. -/
def resolveEnv (presetConfig : Option McpServerConfig)
    (env : Option (List (String × String))) : List (String × String) :=
  let env0 := match presetConfig with
    | some cfg => match cfg.env with | some m => m | none => []
    | none => []
  match env with
  | some envOverride =>
      if env0 = [] then envOverride
      else envOverride.foldl (fun m kv => insertKV m kv.1 kv.2) env0
  | none => env0

/-- The `startup_timeout_value` computation (lines 130–135). -/
def resolveStartupTimeout (presetConfig : Option McpServerConfig)
    (startupOverride : Option Duration) : Option Duration :=
  match startupOverride with
  | some d => some d
  | none => match presetConfig with | some cfg => cfg.startup_timeout_sec | none => none

/-- The `tool_timeout_value` computation (lines 137–140). -/
def resolveToolTimeout (presetConfig : Option McpServerConfig)
    (toolOverride : Option Duration) : Option Duration :=
  match toolOverride with
  | some d => some d
  | none => match presetConfig with | some cfg => cfg.tool_timeout_sec | none => none

/-- The final `env` field (lines 146–150): an empty map is stored as absent. -/
def emptyToNone (m : List (String × String)) : Option (List (String × String)) :=
  if m = [] then none else some m

/-- Function `McpServerConfig::deserialize` (lines 66–153), operating on the
already-parsed `RawMcpServerConfig`. -/
def McpServerConfig.deserialize (raw : RawMcpServerConfig) :
    Except DeserializeError McpServerConfig :=
  match startupTimeoutOverride raw.startup_timeout_sec raw.startup_timeout_ms with
  | .error e => .error e
  | .ok startupOverride =>
    match presetConfigFor raw.preset with
    | .error e => .error e
    | .ok presetConfig =>
      match resolveCommand presetConfig raw.command with
      | .error e => .error e
      | .ok commandValue =>
          .ok { preset := raw.preset
                command := commandValue
                args := resolveArgs presetConfig raw.args
                env := emptyToNone (resolveEnv presetConfig raw.env)
                startup_timeout_sec := resolveStartupTimeout presetConfig startupOverride
                tool_timeout_sec := resolveToolTimeout presetConfig raw.tool_timeout_sec }

/-- Enum `ShellEnvironmentPolicyInherit` from `config_types.rs`. -/
inductive ShellEnvironmentPolicyInherit where
  | Core
  | All
  | None
  deriving DecidableEq

/-- Structure `ShellEnvironmentPolicyToml`: the raw declarative policy, every
field optional. -/
structure ShellEnvironmentPolicyToml where
  inherit : Option ShellEnvironmentPolicyInherit
  ignore_default_excludes : Option Bool
  exclude : Option (List String)
  set : Option (List (String × String))
  include_only : Option (List String)
  experimental_use_profile : Option Bool
  deriving DecidableEq

/-- Pattern type `wildmatch::WildMatchPattern` of the external crate, recorded
as the pattern text together with its case sensitivity. -/
structure EnvironmentVariablePattern where
  pattern : String
  caseInsensitive : Bool
  deriving DecidableEq

/-- Constructor `WildMatchPattern::new_case_insensitive`. -/
def EnvironmentVariablePattern.newCaseInsensitive (s : String) : EnvironmentVariablePattern :=
  ⟨s, true⟩

/-- Structure `ShellEnvironmentPolicy`: the concrete policy. -/
structure ShellEnvironmentPolicy where
  inherit : ShellEnvironmentPolicyInherit
  ignore_default_excludes : Bool
  exclude : List EnvironmentVariablePattern
  set : List (String × String)
  include_only : List EnvironmentVariablePattern
  use_profile : Bool
  deriving DecidableEq

/-- The `From<ShellEnvironmentPolicyToml> for ShellEnvironmentPolicy`
conversion (config_types.rs lines 345–374). -/
def shellEnvironmentPolicyFromToml (toml : ShellEnvironmentPolicyToml) :
    ShellEnvironmentPolicy :=
  { inherit := toml.inherit.getD ShellEnvironmentPolicyInherit.All
    ignore_default_excludes := toml.ignore_default_excludes.getD false
    exclude := (toml.exclude.getD []).map EnvironmentVariablePattern.newCaseInsensitive
    set := toml.set.getD []
    include_only := (toml.include_only.getD []).map EnvironmentVariablePattern.newCaseInsensitive
    use_profile := toml.experimental_use_profile.getD false }

/-- Re-expression of an already-resolved specification as the raw
struct the next parse builds, with no preset field: the serializer
writes both timeouts as f64 seconds (`option_duration_secs::serialize`
uses `as_secs_f64`), and on the way back in the tool timeout is
re-parsed by `option_duration_secs::deserialize`, i.e. fed through
`Duration::try_from_secs_f64`, which can fail; the startup timeout's
serialized f64 value is stored as-is in the raw struct and converted
later by the resolver itself. -/
def McpServerConfig.reexpress (spec : McpServerConfig) :
    Except DeserializeError RawMcpServerConfig :=
  match spec.tool_timeout_sec with
  | none =>
      .ok { preset := none
            command := some spec.command
            args := spec.args
            env := spec.env
            startup_timeout_sec := spec.startup_timeout_sec.map Duration.asSecsF64Rat
            startup_timeout_ms := none
            tool_timeout_sec := none }
  | some d =>
      (Duration.tryFromSecsF64 d.asSecsF64Rat).map fun d2 =>
        { preset := none
          command := some spec.command
          args := spec.args
          env := spec.env
          startup_timeout_sec := spec.startup_timeout_sec.map Duration.asSecsF64Rat
          startup_timeout_ms := none
          tool_timeout_sec := some d2 }

/-! ### Concrete inputs used by the per-claim witnesses -/

/-- Witness input for the environment-merge claim: the Chrome DevTools
preset together with an explicit environment override. -/
def c1raw : RawMcpServerConfig :=
  { preset := some "chrome_devtools", command := none, args := [],
    env := some [("B", "9"), ("C", "3")],
    startup_timeout_sec := none, startup_timeout_ms := none, tool_timeout_sec := none }

/-- The specification `c1raw` resolves to. -/
def c1spec : McpServerConfig :=
  { preset := some "chrome_devtools", command := "npx",
    args := ["chrome-devtools-mcp@latest", "--stdio"], env := some [("B", "9"), ("C", "3")],
    startup_timeout_sec := some ⟨45, 0⟩, tool_timeout_sec := some ⟨120, 0⟩ }

/-- Witness input for the error-contract claim: an unregistered preset
identifier and well-formed (absent) timeout fields. -/
def c2raw : RawMcpServerConfig :=
  { preset := some "bogus", command := none, args := [], env := none,
    startup_timeout_sec := none, startup_timeout_ms := none, tool_timeout_sec := none }

/-- Counterexample input for the error-contract claim: an unregistered
preset identifier together with a negative startup-seconds value, on
which resolution fails with the duration error instead. -/
def c2rawBad : RawMcpServerConfig :=
  { preset := some "bogus", command := none, args := [], env := none,
    startup_timeout_sec := some (-1 : Rat), startup_timeout_ms := none,
    tool_timeout_sec := none }

/-- Counterexample input for the failure-mode claim: an explicit
command and a negative startup-seconds value. -/
def c3rawBad : RawMcpServerConfig :=
  { preset := none, command := some "echo", args := [], env := none,
    startup_timeout_sec := some (-1 : Rat), startup_timeout_ms := none,
    tool_timeout_sec := none }

/-- Witness input for the round-trip claim: an already-resolved
specification with no preset provenance. -/
def c4spec : McpServerConfig :=
  { preset := none, command := "echo", args := ["hello"],
    env := some [("HOME", "/u")],
    startup_timeout_sec := some ⟨5, 500000000⟩, tool_timeout_sec := some ⟨7, 0⟩ }

/-- Counterexample input for the round-trip claim: a declaration whose
startup timeout in milliseconds resolves to a duration whose seconds
value is not representable as a binary64. -/
def c4rawMs : RawMcpServerConfig :=
  { preset := none, command := some "echo", args := [], env := none,
    startup_timeout_sec := none, startup_timeout_ms := some 18014398509481984,
    tool_timeout_sec := none }

/-- The specification `c4rawMs` resolves to: 18014398509481.984 seconds. -/
def c4specBad : McpServerConfig :=
  { preset := none, command := "echo", args := [], env := none,
    startup_timeout_sec := some ⟨18014398509481, 984000000⟩, tool_timeout_sec := none }

/-- The raw declaration `c4specBad` re-expresses to: its startup
timeout serializes to the binary64 value 18014398509481.984375. -/
def c4rawBad2 : RawMcpServerConfig :=
  { preset := none, command := some "echo", args := [], env := none,
    startup_timeout_sec := some (mkRat 1152921504606847 64), startup_timeout_ms := none,
    tool_timeout_sec := none }

/-- The specification `c4rawBad2` re-resolves to: its startup timeout
differs from the one of `c4specBad`. -/
def c4outBad : McpServerConfig :=
  { preset := none, command := "echo", args := [], env := none,
    startup_timeout_sec := some ⟨18014398509481, 984375000⟩, tool_timeout_sec := none }

/-- Witness input for the startup-timeout precedence claim: both a
seconds and a milliseconds value, over a preset with its own default. -/
def c5raw : RawMcpServerConfig :=
  { preset := some "chrome_devtools", command := none, args := [], env := none,
    startup_timeout_sec := some (5 : Rat), startup_timeout_ms := some 3,
    tool_timeout_sec := none }

/-- The specification `c5raw` resolves to: the seconds value wins. -/
def c5spec : McpServerConfig :=
  { preset := some "chrome_devtools", command := "npx",
    args := ["chrome-devtools-mcp@latest", "--stdio"], env := none,
    startup_timeout_sec := some ⟨5, 0⟩, tool_timeout_sec := some ⟨120, 0⟩ }

/-- Witness input for the argument-precedence claim: a preset plus a
non-empty explicit argument list. -/
def c7raw : RawMcpServerConfig :=
  { preset := some "chrome_devtools", command := none, args := ["--foo"], env := none,
    startup_timeout_sec := none, startup_timeout_ms := none, tool_timeout_sec := none }

/-- The specification `c7raw` resolves to. -/
def c7spec : McpServerConfig :=
  { preset := some "chrome_devtools", command := "npx", args := ["--foo"], env := none,
    startup_timeout_sec := some ⟨45, 0⟩, tool_timeout_sec := some ⟨120, 0⟩ }

/-- The all-unspecified raw environment policy. -/
def c8tomlEmpty : ShellEnvironmentPolicyToml :=
  { inherit := none, ignore_default_excludes := none, exclude := none,
    set := none, include_only := none, experimental_use_profile := none }

/-- A raw environment policy supplying exclude and include-only patterns. -/
def c8toml : ShellEnvironmentPolicyToml :=
  { inherit := none, ignore_default_excludes := none, exclude := some ["FOO*"],
    set := none, include_only := some ["PATH", "HO?E"], experimental_use_profile := none }

/-- Witness input for the empty-override claim: a preset together with
an explicitly empty environment override. -/
def c9raw : RawMcpServerConfig :=
  { preset := some "chrome_devtools", command := none, args := [], env := some [],
    startup_timeout_sec := none, startup_timeout_ms := none, tool_timeout_sec := none }

/-- Witness input for the preset-implies-command claim: a registered
preset and no explicit command. -/
def c10raw : RawMcpServerConfig :=
  { preset := some "chrome_devtools", command := none, args := [], env := none,
    startup_timeout_sec := none, startup_timeout_ms := none, tool_timeout_sec := none }

/-! ### Helper lemmas about the association-list environment model -/

theorem lookupKV_insertKV (m : List (String × String)) (k v k2) :
    lookupKV (insertKV m k v) k2 = if k2 = k then some v else lookupKV m k2 := by
  induction m with
  | nil =>
    simp only [insertKV, lookupKV]
    by_cases h : k = k2 <;> simp [h, eq_comm]
  | cons p rest ih =>
    simp only [insertKV]
    by_cases hp : p.1 = k
    · simp only [hp, if_pos rfl, lookupKV]
      by_cases h2 : k = k2 <;> simp [lookupKV, hp, h2, eq_comm]
    · simp only [if_neg hp, lookupKV, ih]
      by_cases h2 : p.1 = k2
      · have : ¬ k2 = k := fun h => hp (h2.trans h)
        simp [h2, this]
      · simp [h2]

theorem insertKV_ne_nil (m : List (String × String)) (k v) : insertKV m k v ≠ [] := by
  cases m with
  | nil => simp [insertKV]
  | cons p rest =>
    simp only [insertKV]
    by_cases hp : p.1 = k <;> simp [hp]

theorem foldl_insertKV_ne_nil (l : List (String × String)) (m : List (String × String))
    (hm : m ≠ []) : l.foldl (fun acc kv => insertKV acc kv.1 kv.2) m ≠ [] := by
  induction l generalizing m with
  | nil => simpa using hm
  | cons kv t ih =>
    simpa using ih (insertKV m kv.1 kv.2) (insertKV_ne_nil m kv.1 kv.2)

theorem lookupKV_eq_none_of_not_mem (l : List (String × String)) (k : String)
    (h : k ∉ l.map Prod.fst) : lookupKV l k = none := by
  induction l with
  | nil => rfl
  | cons p rest ih =>
    simp only [List.map_cons, List.mem_cons] at h
    push_neg at h
    have hp : ¬ p.1 = k := fun hk => h.1 hk.symm
    simp [lookupKV, hp, ih h.2]

theorem lookupKV_foldl_insertKV (l : List (String × String)) (m : List (String × String))
    (k : String) (hnd : (l.map Prod.fst).Nodup) :
    lookupKV (l.foldl (fun acc kv => insertKV acc kv.1 kv.2) m) k =
      match lookupKV l k with
      | some v => some v
      | none => lookupKV m k := by
  induction l generalizing m with
  | nil => simp [lookupKV]
  | cons kv t ih =>
    simp only [List.map_cons, List.nodup_cons] at hnd
    rw [List.foldl_cons, ih (insertKV m kv.1 kv.2) hnd.2]
    by_cases hk : kv.1 = k
    · have hnone : lookupKV t k = none :=
        lookupKV_eq_none_of_not_mem t k (hk ▸ hnd.1)
      simp [lookupKV, hk, hnone, lookupKV_insertKV]
    · have hk2 : ¬ k = kv.1 := fun h => hk h.symm
      simp only [lookupKV, if_neg hk]
      cases h : lookupKV t k <;> simp [lookupKV_insertKV, hk2]

/-! ### Helper lemmas about the duration model -/

theorem roundNanosHalfEven_eq_of_mul (q : Rat) (z : Int)
    (h : q * ((NANOS_PER_SEC : Nat) : Rat) = (z : Rat)) :
    roundNanosHalfEven q.num q.den = z := by
  have hdQ : ((q.den : Nat) : Rat) ≠ 0 := by
    exact_mod_cast q.den_nz
  have hkey : q.num * (NANOS_PER_SEC : Int) = z * (q.den : Int) := by
    have hq : ((q.num : Int) : Rat) / ((q.den : Nat) : Rat) = q := Rat.num_div_den q
    have h2 : ((q.num : Int) : Rat) * ((NANOS_PER_SEC : Nat) : Rat) =
        (z : Rat) * ((q.den : Nat) : Rat) := by
      rw [← hq] at h
      field_simp at h
      linarith [h]
    exact_mod_cast h2
  have hdpos : (0 : Int) < (q.den : Int) := by exact_mod_cast q.den_pos
  have hdne : (q.den : Int) ≠ 0 := ne_of_gt hdpos
  simp only [roundNanosHalfEven, hkey]
  rw [Int.mul_fdiv_cancel z hdne]
  have hr2 : 2 * (z * (q.den : Int) - z * (q.den : Int)) = 0 := by ring
  rw [hr2, if_pos hdpos]

theorem asSecsRat_mul_nanos (d : Duration) :
    d.asSecsRat * ((NANOS_PER_SEC : Nat) : Rat) =
      (((d.secs * NANOS_PER_SEC + d.nanos : Nat) : Int) : Rat) := by
  have hne : ((NANOS_PER_SEC : Nat) : Rat) ≠ 0 := by
    simp [NANOS_PER_SEC]
  rw [Duration.asSecsRat, Rat.mkRat_eq_div]
  field_simp

theorem tryFromSecsF64_asSecsRat (d : Duration) (h1 : d.nanos < NANOS_PER_SEC)
    (h2 : d.secs < 2 ^ 64) :
    Duration.tryFromSecsF64 d.asSecsRat = .ok d := by
  have hnonneg : ¬ (d.asSecsRat < 0) := by
    rw [Duration.asSecsRat, Rat.mkRat_eq_div, not_lt]
    positivity
  have hz : roundNanosHalfEven d.asSecsRat.num d.asSecsRat.den =
      ((d.secs * NANOS_PER_SEC + d.nanos : Nat) : Int) :=
    roundNanosHalfEven_eq_of_mul _ _ (asSecsRat_mul_nanos d)
  have hbound : ¬ ((2 ^ 64 : Int) * (NANOS_PER_SEC : Int) ≤
      ((d.secs * NANOS_PER_SEC + d.nanos : Nat) : Int)) := by
    have h64 : (2 : Int) ^ 64 = 18446744073709551616 := by norm_num
    have h64n : (2 : Nat) ^ 64 = 18446744073709551616 := by norm_num
    simp only [NANOS_PER_SEC] at h1 ⊢
    rw [h64]
    push_cast
    rw [h64n] at h2
    omega
  simp only [Duration.tryFromSecsF64, if_neg hnonneg, hz, if_neg hbound]
  have htn : (((d.secs * NANOS_PER_SEC + d.nanos : Nat) : Int)).toNat =
      d.secs * NANOS_PER_SEC + d.nanos := Int.toNat_natCast _
  rw [htn]
  have hdiv : (d.secs * NANOS_PER_SEC + d.nanos) / NANOS_PER_SEC = d.secs := by
    simp only [NANOS_PER_SEC] at h1 ⊢
    omega
  have hmod : (d.secs * NANOS_PER_SEC + d.nanos) % NANOS_PER_SEC = d.nanos := by
    simp only [NANOS_PER_SEC] at h1 ⊢
    omega
  rw [hdiv, hmod]

/-! ### Inversion of the resolver -/

theorem deserialize_ok_elim {raw : RawMcpServerConfig} {spec : McpServerConfig}
    (h : McpServerConfig.deserialize raw = .ok spec) :
    ∃ so pc cv,
      startupTimeoutOverride raw.startup_timeout_sec raw.startup_timeout_ms = .ok so ∧
      presetConfigFor raw.preset = .ok pc ∧
      resolveCommand pc raw.command = .ok cv ∧
      spec = { preset := raw.preset
               command := cv
               args := resolveArgs pc raw.args
               env := emptyToNone (resolveEnv pc raw.env)
               startup_timeout_sec := resolveStartupTimeout pc so
               tool_timeout_sec := resolveToolTimeout pc raw.tool_timeout_sec } := by
  unfold McpServerConfig.deserialize at h
  split at h
  · exact absurd h (by simp)
  next so hso =>
    split at h
    · exact absurd h (by simp)
    next pc hpc =>
      split at h
      · exact absurd h (by simp)
      next cv hcv =>
        refine ⟨so, pc, cv, hso, hpc, hcv, ?_⟩
        injection h with h2
        exact h2.symm

theorem presetConfigFor_ok {p : Option String} {pc : Option McpServerConfig}
    (h : presetConfigFor p = .ok pc) :
    (p = none ∧ pc = none) ∨
      (∃ pid P, p = some pid ∧ find_mcp_server_preset pid = some P ∧
        pc = some P.to_config) := by
  cases p with
  | none =>
    left
    simp only [presetConfigFor] at h
    injection h with h2
    exact ⟨rfl, h2.symm⟩
  | some pid =>
    right
    simp only [presetConfigFor] at h
    cases hf : find_mcp_server_preset pid with
    | none => rw [hf] at h; exact absurd h (by simp)
    | some P =>
      rw [hf] at h
      injection h with h2
      exact ⟨pid, P, rfl, hf, h2.symm⟩

theorem tryFromSecsF64_error {q : Rat} {e : DeserializeError}
    (h : Duration.tryFromSecsF64 q = .error e) : e = .invalidDuration := by
  unfold Duration.tryFromSecsF64 at h
  simp only [] at h
  split at h
  · injection h with h2
    exact h2.symm
  · split at h
    · injection h with h2
      exact h2.symm
    · exact absurd h (by simp)

theorem startupTimeoutOverride_error {a : Option Rat} {b : Option Nat}
    {e : DeserializeError} (h : startupTimeoutOverride a b = .error e) :
    ∃ q, a = some q ∧ Duration.tryFromSecsF64 q = .error e ∧ e = .invalidDuration := by
  cases a with
  | some sec =>
    simp only [startupTimeoutOverride] at h
    cases ht : Duration.tryFromSecsF64 sec with
    | error e2 =>
      rw [ht] at h
      simp only [Except.map] at h
      injection h with h2
      subst h2
      exact ⟨sec, rfl, ht, tryFromSecsF64_error ht⟩
    | ok d =>
      rw [ht] at h
      exact absurd h (by simp [Except.map])
  | none =>
    cases b <;> simp [startupTimeoutOverride] at h

theorem emptyToNone_eq_none {m : List (String × String)} :
    emptyToNone m = none ↔ m = [] := by
  unfold emptyToNone
  by_cases h : m = [] <;> simp [h]

theorem resolveEnv_some_preset (P : McpServerPreset) (ov : List (String × String)) :
    resolveEnv (some P.to_config) (some ov) =
      if P.env = [] then ov
      else ov.foldl (fun m kv => insertKV m kv.1 kv.2) P.env := by
  by_cases h : P.env = []
  · simp [resolveEnv, McpServerPreset.to_config, h]
  · simp [resolveEnv, McpServerPreset.to_config, h]

theorem deserialize_error_iff (raw : RawMcpServerConfig) (e : DeserializeError) :
    McpServerConfig.deserialize raw = .error e ↔
      (startupTimeoutOverride raw.startup_timeout_sec raw.startup_timeout_ms = .error e) ∨
      ((∃ so, startupTimeoutOverride raw.startup_timeout_sec raw.startup_timeout_ms =
          .ok so) ∧
        ((∃ pid, raw.preset = some pid ∧ find_mcp_server_preset pid = none ∧
            e = .unknownPreset pid) ∨
          (raw.preset = none ∧ raw.command = none ∧ e = .missingCommand))) := by
  unfold McpServerConfig.deserialize
  cases hso : startupTimeoutOverride raw.startup_timeout_sec raw.startup_timeout_ms with
  | error e2 => simp [eq_comm]
  | ok so =>
    cases hp : raw.preset with
    | some pid =>
      cases hf : find_mcp_server_preset pid with
      | none => simp [presetConfigFor, hf, eq_comm]
      | some P => simp [presetConfigFor, hf, resolveCommand]
    | none =>
      cases hc : raw.command with
      | some cmd => simp [presetConfigFor, resolveCommand]
      | none => simp [presetConfigFor, resolveCommand, eq_comm]

/-! ### Claim theorems -/

/-- Claim C6: for every registered preset P, resolving a raw
declaration whose only field is the preset identifier yields a
specification with the preset's command, arguments, environment
(absent when the preset's environment is empty), startup timeout and
tool-call timeout. -/
theorem C6_preset_defaults (pid : String) (P : McpServerPreset)
    (hfind : find_mcp_server_preset pid = some P) :
    McpServerConfig.deserialize
      { preset := some pid, command := none, args := [], env := none,
        startup_timeout_sec := none, startup_timeout_ms := none,
        tool_timeout_sec := none } =
    Except.ok
      { preset := some pid, command := P.command, args := P.args,
        env := if P.env = [] then none else some P.env,
        startup_timeout_sec := P.startup_timeout,
        tool_timeout_sec := P.tool_timeout } := by
  unfold McpServerConfig.deserialize
  simp only [startupTimeoutOverride, presetConfigFor, hfind, resolveCommand,
    resolveArgs, resolveEnv, resolveStartupTimeout, resolveToolTimeout,
    McpServerPreset.to_config, emptyToNone]
  by_cases hpe : P.env = [] <;> simp [hpe]

/-- Witness for C6 at the registered `chrome_devtools` preset. -/
theorem C6_preset_defaults_witness :
    McpServerConfig.deserialize
      { preset := some "chrome_devtools", command := none, args := [], env := none,
        startup_timeout_sec := none, startup_timeout_ms := none,
        tool_timeout_sec := none } =
    Except.ok
      { preset := some "chrome_devtools", command := CHROME_DEVTOOLS.command,
        args := CHROME_DEVTOOLS.args,
        env := if CHROME_DEVTOOLS.env = [] then none else some CHROME_DEVTOOLS.env,
        startup_timeout_sec := CHROME_DEVTOOLS.startup_timeout,
        tool_timeout_sec := CHROME_DEVTOOLS.tool_timeout } :=
  C6_preset_defaults "chrome_devtools" CHROME_DEVTOOLS (by decide)

/-- Claim C7: the resolved argument list is the explicit list when it
is non-empty and otherwise the preset's argument list (empty when no
preset is named); an explicitly empty argument list therefore cannot
override a preset's non-empty default arguments. -/
theorem C7_args_precedence (raw : RawMcpServerConfig) (spec : McpServerConfig)
    (hok : McpServerConfig.deserialize raw = .ok spec) :
    (raw.args ≠ [] → spec.args = raw.args) ∧
    (raw.args = [] →
      (raw.preset = none → spec.args = []) ∧
      (∀ pid P, raw.preset = some pid → find_mcp_server_preset pid = some P →
        spec.args = P.args)) := by
  obtain ⟨so, pc, cv, hso, hpc, hcv, hspec⟩ := deserialize_ok_elim hok
  subst hspec
  constructor
  · intro hargs
    simp [resolveArgs, hargs]
  · intro hargs
    constructor
    · intro hp
      rw [hp] at hpc
      simp only [presetConfigFor] at hpc
      injection hpc with h2
      simp [resolveArgs, hargs, ← h2]
    · intro pid P hp hf
      rw [hp] at hpc
      simp only [presetConfigFor, hf] at hpc
      injection hpc with h2
      simp [resolveArgs, hargs, ← h2, McpServerPreset.to_config]

/-- Witness for C7: explicit arguments override the preset's defaults. -/
theorem C7_args_precedence_witness :
    McpServerConfig.deserialize c7raw = Except.ok c7spec ∧ c7spec.args = c7raw.args :=
  ⟨by decide, (C7_args_precedence c7raw c7spec (by decide)).1 (by decide)⟩

/-- Claim C9: an environment override that is present but empty
behaves exactly as if no override were given. -/
theorem C9_empty_env_override (raw : RawMcpServerConfig) (h : raw.env = some []) :
    McpServerConfig.deserialize raw =
      McpServerConfig.deserialize { raw with env := none } := by
  have henv : ∀ pc, resolveEnv pc raw.env = resolveEnv pc none := by
    intro pc
    rw [h]
    cases pc with
    | none => simp [resolveEnv]
    | some cfg =>
      cases hce : cfg.env with
      | none => simp [resolveEnv, hce]
      | some m =>
        by_cases hm : m = [] <;> simp [resolveEnv, hce, hm, List.foldl]
  unfold McpServerConfig.deserialize
  dsimp only
  cases hso : startupTimeoutOverride raw.startup_timeout_sec raw.startup_timeout_ms with
  | error e => rfl
  | ok so =>
    dsimp only
    cases hpc : presetConfigFor raw.preset with
    | error e => rfl
    | ok pc =>
      dsimp only
      cases hcv : resolveCommand pc raw.command with
      | error e => rfl
      | ok cv => simp [henv pc]

/-- Witness for C9 at the Chrome DevTools preset with an explicitly
empty override. -/
theorem C9_empty_env_override_witness :
    McpServerConfig.deserialize c9raw =
      McpServerConfig.deserialize { c9raw with env := none } :=
  C9_empty_env_override c9raw (by decide)

/-- Claim C10: a declaration naming a registered preset never fails
with the missing-command error, and the missing-command error is
reachable only when no preset is named. -/
theorem C10_preset_implies_command (raw : RawMcpServerConfig) :
    (∀ pid P, raw.preset = some pid → find_mcp_server_preset pid = some P →
      McpServerConfig.deserialize raw ≠ .error .missingCommand) ∧
    (McpServerConfig.deserialize raw = .error .missingCommand → raw.preset = none) := by
  have haux : McpServerConfig.deserialize raw = .error .missingCommand →
      raw.preset = none := by
    intro h
    rcases (deserialize_error_iff raw .missingCommand).mp h with hA | ⟨_, hB | hC⟩
    · obtain ⟨q, _, _, habs⟩ := startupTimeoutOverride_error hA
      exact absurd habs (by simp)
    · obtain ⟨pid, _, _, habs⟩ := hB
      exact absurd habs (by simp)
    · exact hC.1
  refine ⟨?_, haux⟩
  intro pid P hp _ h
  rw [haux h] at hp
  exact Option.noConfusion hp

/-- Witness for C10 at the Chrome DevTools preset. -/
theorem C10_preset_implies_command_witness :
    McpServerConfig.deserialize c10raw ≠ .error .missingCommand :=
  (C10_preset_implies_command c10raw).1 "chrome_devtools" CHROME_DEVTOOLS
    (by decide) (by decide)

/-- Claim C5: the resolved startup timeout is the explicit value when
one is present (with the seconds field winning over the milliseconds
field when both are supplied), otherwise the preset's startup timeout,
otherwise absent. -/
theorem C5_startup_timeout_precedence (raw : RawMcpServerConfig) (spec : McpServerConfig)
    (hok : McpServerConfig.deserialize raw = .ok spec) :
    (∀ q d, raw.startup_timeout_sec = some q → Duration.tryFromSecsF64 q = .ok d →
      spec.startup_timeout_sec = some d) ∧
    (raw.startup_timeout_sec = none → ∀ ms, raw.startup_timeout_ms = some ms →
      spec.startup_timeout_sec = some (Duration.fromMillis ms)) ∧
    (raw.startup_timeout_sec = none → raw.startup_timeout_ms = none →
      (raw.preset = none → spec.startup_timeout_sec = none) ∧
      (∀ pid P, raw.preset = some pid → find_mcp_server_preset pid = some P →
        spec.startup_timeout_sec = P.startup_timeout)) := by
  obtain ⟨so, pc, cv, hso, hpc, hcv, hspec⟩ := deserialize_ok_elim hok
  subst hspec
  refine ⟨?_, ?_, ?_⟩
  · intro q d hq hd
    rw [hq] at hso
    simp only [startupTimeoutOverride, hd, Except.map] at hso
    injection hso with h2
    simp [resolveStartupTimeout, ← h2]
  · intro hq ms hms
    rw [hq, hms] at hso
    simp only [startupTimeoutOverride] at hso
    injection hso with h2
    simp [resolveStartupTimeout, ← h2]
  · intro hq hms
    rw [hq, hms] at hso
    simp only [startupTimeoutOverride] at hso
    injection hso with h2
    constructor
    · intro hp
      rw [hp] at hpc
      simp only [presetConfigFor] at hpc
      injection hpc with h3
      simp [resolveStartupTimeout, ← h2, ← h3]
    · intro pid P hp hf
      rw [hp] at hpc
      simp only [presetConfigFor, hf] at hpc
      injection hpc with h3
      simp [resolveStartupTimeout, ← h2, ← h3, McpServerPreset.to_config]

/-- Witness for C5: seconds and milliseconds both supplied over the
Chrome DevTools preset; the seconds value wins. -/
theorem C5_startup_timeout_precedence_witness :
    McpServerConfig.deserialize c5raw = Except.ok c5spec ∧
    c5spec.startup_timeout_sec = some ⟨5, 0⟩ :=
  ⟨by decide,
    (C5_startup_timeout_precedence c5raw c5spec (by decide)).1 (5 : Rat) ⟨5, 0⟩
      (by decide) (by decide)⟩

/-- Claim C1: with a registered preset and an explicit environment
override, an empty preset environment is replaced wholesale by the
override, a non-empty preset environment is merged key by key with
override entries winning and all other preset entries retained, and
the resolved environment field is absent exactly when the resulting
map is empty. -/
theorem C1_env_override_merge (raw : RawMcpServerConfig) (pid : String)
    (P : McpServerPreset) (ov : List (String × String)) (spec : McpServerConfig)
    (hpreset : raw.preset = some pid)
    (hfind : find_mcp_server_preset pid = some P)
    (hov : raw.env = some ov)
    (hnodup : (ov.map Prod.fst).Nodup)
    (hok : McpServerConfig.deserialize raw = .ok spec) :
    (P.env = [] → spec.env = if ov = [] then none else some ov) ∧
    (P.env ≠ [] → ∃ m, spec.env = some m ∧ ∀ k,
      lookupKV m k = match lookupKV ov k with
        | some v => some v
        | none => lookupKV P.env k) ∧
    (spec.env = none ↔ P.env = [] ∧ ov = []) := by
  obtain ⟨so, pc, cv, hso, hpc, hcv, hspec⟩ := deserialize_ok_elim hok
  subst hspec
  rw [hpreset] at hpc
  simp only [presetConfigFor, hfind] at hpc
  injection hpc with h2
  rw [hov, ← h2, resolveEnv_some_preset]
  by_cases hpe : P.env = []
  · rw [if_pos hpe]
    refine ⟨fun _ => rfl, fun habs => absurd hpe habs, ?_⟩
    unfold emptyToNone
    by_cases hove : ov = [] <;> simp [hove, hpe]
  · rw [if_neg hpe]
    have hne : ov.foldl (fun m kv => insertKV m kv.1 kv.2) P.env ≠ [] :=
      foldl_insertKV_ne_nil ov P.env hpe
    refine ⟨fun habs => absurd habs hpe, fun _ => ?_, ?_⟩
    · refine ⟨ov.foldl (fun m kv => insertKV m kv.1 kv.2) P.env, ?_, ?_⟩
      · simp [emptyToNone, hne]
      · intro k
        exact lookupKV_foldl_insertKV ov P.env k hnodup
    · simp [emptyToNone, hne, hpe]

/-- Witness for C1: the Chrome DevTools preset (empty preset
environment) with a non-empty override, which is taken wholesale. -/
theorem C1_env_override_merge_witness :
    McpServerConfig.deserialize c1raw = Except.ok c1spec ∧
    c1spec.env = some [("B", "9"), ("C", "3")] :=
  ⟨by decide,
    by
      have h := (C1_env_override_merge c1raw "chrome_devtools" CHROME_DEVTOOLS
        [("B", "9"), ("C", "3")] c1spec rfl (by decide) rfl (by decide) (by decide)).1
        (by decide)
      simpa using h⟩

/-- Claim C2 counterexample: a declaration naming the unregistered
preset `bogus` together with a negative startup-seconds value fails
with the invalid-duration error, not with `UnknownPreset("bogus")`,
so the claimed "exactly when" fails as stated. -/
theorem C2_error_contract_counterexample :
    c2rawBad.preset = some "bogus" ∧
    find_mcp_server_preset "bogus" = none ∧
    McpServerConfig.deserialize c2rawBad ≠
      Except.error (DeserializeError.unknownPreset "bogus") ∧
    McpServerConfig.deserialize c2rawBad = Except.error DeserializeError.invalidDuration := by
  decide

/-- Claim C2, amended: provided the declaration's startup timeout
fields convert successfully, resolution fails with the unknown-preset
error carrying the offending identifier exactly when the declaration
names an unregistered preset, fails with the missing-command error
exactly when no preset is named and no explicit command is present,
and succeeds in all other cases. -/
theorem C2_error_contract_amended (raw : RawMcpServerConfig)
    (hso : (startupTimeoutOverride raw.startup_timeout_sec raw.startup_timeout_ms).isOk
      = true) :
    (∀ pid, McpServerConfig.deserialize raw = .error (.unknownPreset pid) ↔
      (raw.preset = some pid ∧ find_mcp_server_preset pid = none)) ∧
    (McpServerConfig.deserialize raw = .error .missingCommand ↔
      (raw.preset = none ∧ raw.command = none)) ∧
    ((∀ pid, raw.preset = some pid → find_mcp_server_preset pid ≠ none) →
      ¬ (raw.preset = none ∧ raw.command = none) →
      (McpServerConfig.deserialize raw).isOk = true) := by
  obtain ⟨so, hso2⟩ : ∃ so,
      startupTimeoutOverride raw.startup_timeout_sec raw.startup_timeout_ms = .ok so := by
    cases h : startupTimeoutOverride raw.startup_timeout_sec raw.startup_timeout_ms with
    | error e => rw [h] at hso; exact absurd hso (by simp [Except.isOk, Except.toBool])
    | ok so => exact ⟨so, rfl⟩
  refine ⟨?_, ?_, ?_⟩
  · intro pid
    constructor
    · intro h
      rcases (deserialize_error_iff raw _).mp h with hA | ⟨_, hB | hC⟩
      · rw [hso2] at hA
        exact absurd hA (by simp)
      · obtain ⟨pid2, hp, hf, heq⟩ := hB
        injection heq with h2
        exact ⟨h2 ▸ hp, h2 ▸ hf⟩
      · exact absurd hC.2.2 (by simp)
    · rintro ⟨hp, hf⟩
      exact (deserialize_error_iff raw _).mpr
        (Or.inr ⟨⟨so, hso2⟩, Or.inl ⟨pid, hp, hf, rfl⟩⟩)
  · constructor
    · intro h
      rcases (deserialize_error_iff raw _).mp h with hA | ⟨_, hB | hC⟩
      · rw [hso2] at hA
        exact absurd hA (by simp)
      · obtain ⟨pid2, hp, hf, heq⟩ := hB
        exact absurd heq (by simp)
      · exact ⟨hC.1, hC.2.1⟩
    · rintro ⟨hp, hc⟩
      exact (deserialize_error_iff raw _).mpr
        (Or.inr ⟨⟨so, hso2⟩, Or.inr ⟨hp, hc, rfl⟩⟩)
  · intro hreg hmc
    cases hdes : McpServerConfig.deserialize raw with
    | ok spec => simp [Except.isOk, Except.toBool]
    | error e =>
      rcases (deserialize_error_iff raw _).mp hdes with hA | ⟨_, hB | hC⟩
      · rw [hso2] at hA
        exact absurd hA (by simp)
      · obtain ⟨pid, hp, hf, _⟩ := hB
        exact absurd hf (hreg pid hp)
      · exact absurd ⟨hC.1, hC.2.1⟩ hmc

/-- Witness for amended C2 at a declaration naming the unregistered
preset `bogus` with no timeout fields. -/
theorem C2_error_contract_amended_witness :
    McpServerConfig.deserialize c2raw =
      Except.error (DeserializeError.unknownPreset "bogus") :=
  ((C2_error_contract_amended c2raw (by decide)).1 "bogus").mpr ⟨rfl, by decide⟩

/-- Claim C3 counterexample: a declaration with an explicit command
and a negative startup-seconds value makes resolution fail with the
invalid-duration error, which is neither an unknown-preset nor a
missing-command error, so resolution has a third failure mode. -/
theorem C3_only_two_errors_counterexample :
    McpServerConfig.deserialize c3rawBad = Except.error DeserializeError.invalidDuration ∧
    (∀ pid, DeserializeError.invalidDuration ≠ DeserializeError.unknownPreset pid) ∧
    DeserializeError.invalidDuration ≠ DeserializeError.missingCommand := by
  refine ⟨by decide, fun pid => by simp, by decide⟩

/-- Claim C3, amended: every resolution error is an unknown-preset, a
missing-command or an invalid-duration error, and the invalid-duration
error occurs exactly when the declaration supplies a startup-seconds
value on which the duration conversion fails (the tool timeout, already
parsed by the raw-struct field adapter, cannot fail here). -/
theorem C3_error_kinds_amended (raw : RawMcpServerConfig) (e : DeserializeError)
    (h : McpServerConfig.deserialize raw = .error e) :
    ((∃ pid, e = .unknownPreset pid) ∨ e = .missingCommand ∨ e = .invalidDuration) ∧
    (e = .invalidDuration ↔
      ∃ q, raw.startup_timeout_sec = some q ∧
        Duration.tryFromSecsF64 q = .error .invalidDuration) := by
  constructor
  · cases e with
    | unknownPreset pid => exact Or.inl ⟨pid, rfl⟩
    | missingCommand => exact Or.inr (Or.inl rfl)
    | invalidDuration => exact Or.inr (Or.inr rfl)
  · constructor
    · intro he
      subst he
      rcases (deserialize_error_iff raw _).mp h with hA | ⟨_, hB | hC⟩
      · obtain ⟨q, hq, ht, _⟩ := startupTimeoutOverride_error hA
        exact ⟨q, hq, ht⟩
      · obtain ⟨pid, _, _, habs⟩ := hB
        exact absurd habs (by simp)
      · exact absurd hC.2.2 (by simp)
    · rintro ⟨q, hq, ht⟩
      have hinv : McpServerConfig.deserialize raw = .error .invalidDuration := by
        apply (deserialize_error_iff raw _).mpr
        left
        rw [hq]
        simp only [startupTimeoutOverride, ht, Except.map]
      rw [h] at hinv
      exact Except.error.inj hinv

/-- Witness for amended C3 at a declaration with a negative
startup-seconds value. -/
theorem C3_error_kinds_amended_witness :
    DeserializeError.invalidDuration = DeserializeError.invalidDuration ↔
      ∃ q, c3rawBad.startup_timeout_sec = some q ∧
        Duration.tryFromSecsF64 q = .error .invalidDuration :=
  (C3_error_kinds_amended c3rawBad DeserializeError.invalidDuration (by decide)).2

/-- Helper for the round-trip claim: resolving the raw struct that
holds a resolved specification's fields verbatim (no preset, startup
timeout given as its exact seconds value) reproduces the
specification, with the preset provenance cleared. -/
theorem deserialize_plain_raw (spec : McpServerConfig)
    (henv : spec.env ≠ some [])
    (hwfS : Option.all Duration.wfb spec.startup_timeout_sec = true) :
    McpServerConfig.deserialize
      { preset := none, command := some spec.command, args := spec.args, env := spec.env,
        startup_timeout_sec := spec.startup_timeout_sec.map Duration.asSecsRat,
        startup_timeout_ms := none, tool_timeout_sec := spec.tool_timeout_sec } =
      Except.ok { spec with preset := none } := by
  have hso : startupTimeoutOverride (spec.startup_timeout_sec.map Duration.asSecsRat) none =
      .ok spec.startup_timeout_sec := by
    cases hst : spec.startup_timeout_sec with
    | none => rfl
    | some d =>
      rw [hst] at hwfS
      simp only [Option.all, Duration.wfb, Bool.and_eq_true, decide_eq_true_eq] at hwfS
      simp only [Option.map_some', startupTimeoutOverride,
        tryFromSecsF64_asSecsRat d hwfS.1 hwfS.2, Except.map]
  have hargs : resolveArgs none spec.args = spec.args := by
    by_cases h : spec.args = [] <;> simp [resolveArgs, h]
  have henv2 : emptyToNone (resolveEnv none spec.env) = spec.env := by
    cases he : spec.env with
    | none => simp [resolveEnv, emptyToNone]
    | some m =>
      have hm : m ≠ [] := fun hm0 => henv (hm0 ▸ he)
      simp [resolveEnv, emptyToNone, hm]
  have htool : resolveToolTimeout none spec.tool_timeout_sec = spec.tool_timeout_sec := by
    cases spec.tool_timeout_sec <;> simp [resolveToolTimeout]
  have hstart : resolveStartupTimeout none spec.startup_timeout_sec =
      spec.startup_timeout_sec := by
    cases spec.startup_timeout_sec <;> simp [resolveStartupTimeout]
  unfold McpServerConfig.deserialize
  dsimp only
  rw [hso]
  dsimp only [presetConfigFor, resolveCommand]
  rw [hargs, henv2, htool, hstart]

/-- Claim C4 counterexample: the resolved specification obtained from
`startup_timeout_ms = 18014398509481984` carries 18014398509481.984
seconds; serializing it writes the binary64 value 18014398509481.984375
(the exact value is not representable, the unit in the last place at
that magnitude being 1/256 s), and re-resolving yields a different
startup timeout, so the round-trip does not reproduce the timeouts
unchanged. -/
theorem C4_roundtrip_counterexample :
    McpServerConfig.deserialize c4rawMs = Except.ok c4specBad ∧
    c4specBad.preset = none ∧
    c4specBad.reexpress = Except.ok c4rawBad2 ∧
    McpServerConfig.deserialize c4rawBad2 = Except.ok c4outBad ∧
    c4outBad.command = c4specBad.command ∧
    c4outBad.startup_timeout_sec ≠ c4specBad.startup_timeout_sec := by
  decide

/-- Claim C4, amended: re-expressing an already-resolved specification
with no preset field and re-resolving reproduces the command,
arguments and environment unchanged, and reproduces both timeouts
unchanged provided the f64 serialization of each timeout is lossless
(its seconds value is exactly representable as a binary64); otherwise
a timeout comes back altered by the f64 rounding. -/
theorem C4_roundtrip_amended (spec : McpServerConfig)
    (henv : spec.env ≠ some [])
    (hwfS : Option.all Duration.wfb spec.startup_timeout_sec = true)
    (hwfT : Option.all Duration.wfb spec.tool_timeout_sec = true)
    (hexS : Option.all Duration.f64ExactB spec.startup_timeout_sec = true)
    (hexT : Option.all Duration.f64ExactB spec.tool_timeout_sec = true) :
    ∃ raw out, spec.reexpress = .ok raw ∧
      McpServerConfig.deserialize raw = .ok out ∧
      out.command = spec.command ∧ out.args = spec.args ∧ out.env = spec.env ∧
      out.startup_timeout_sec = spec.startup_timeout_sec ∧
      out.tool_timeout_sec = spec.tool_timeout_sec := by
  have hmapS : spec.startup_timeout_sec.map Duration.asSecsF64Rat =
      spec.startup_timeout_sec.map Duration.asSecsRat := by
    cases hst : spec.startup_timeout_sec with
    | none => rfl
    | some d =>
      rw [hst] at hexS
      simp only [Option.all, Duration.f64ExactB, decide_eq_true_eq] at hexS
      simp [hexS]
  have hrex : spec.reexpress = .ok
      { preset := none, command := some spec.command, args := spec.args, env := spec.env,
        startup_timeout_sec := spec.startup_timeout_sec.map Duration.asSecsRat,
        startup_timeout_ms := none, tool_timeout_sec := spec.tool_timeout_sec } := by
    unfold McpServerConfig.reexpress
    cases ht : spec.tool_timeout_sec with
    | none =>
      dsimp only
      rw [hmapS]
    | some d =>
      rw [ht] at hexT hwfT
      simp only [Option.all, Duration.f64ExactB, decide_eq_true_eq] at hexT
      simp only [Option.all, Duration.wfb, Bool.and_eq_true, decide_eq_true_eq] at hwfT
      dsimp only
      rw [hexT, tryFromSecsF64_asSecsRat d hwfT.1 hwfT.2]
      simp only [Except.map]
      rw [hmapS]
  exact ⟨_, { spec with preset := none }, hrex,
    deserialize_plain_raw spec henv hwfS, rfl, rfl, rfl, rfl, rfl⟩

/-- Witness for amended C4 at a concrete resolved specification whose
timeouts (5.5 s and 7 s) serialize losslessly. -/
theorem C4_roundtrip_amended_witness :
    ∃ raw out, c4spec.reexpress = .ok raw ∧
      McpServerConfig.deserialize raw = .ok out ∧
      out.command = c4spec.command ∧ out.args = c4spec.args ∧ out.env = c4spec.env ∧
      out.startup_timeout_sec = c4spec.startup_timeout_sec ∧
      out.tool_timeout_sec = c4spec.tool_timeout_sec :=
  C4_roundtrip_amended c4spec (by decide) (by decide) (by decide) (by decide) (by decide)

/-- Claim C8: converting the raw environment policy with every field
unspecified yields inherit mode All, not ignoring the default
excludes, empty exclude, set and include-only collections and no
profile use; and every supplied exclude or include-only string is
compiled into a case-insensitive wildcard pattern. -/
theorem C8_policy_defaults_and_patterns :
    shellEnvironmentPolicyFromToml c8tomlEmpty =
      { inherit := ShellEnvironmentPolicyInherit.All, ignore_default_excludes := false,
        exclude := [], set := [], include_only := [], use_profile := false } ∧
    (∀ toml l, toml.exclude = some l →
      (shellEnvironmentPolicyFromToml toml).exclude =
        l.map EnvironmentVariablePattern.newCaseInsensitive) ∧
    (∀ toml l, toml.include_only = some l →
      (shellEnvironmentPolicyFromToml toml).include_only =
        l.map EnvironmentVariablePattern.newCaseInsensitive) ∧
    (∀ s, (EnvironmentVariablePattern.newCaseInsensitive s).caseInsensitive = true) := by
  refine ⟨by decide, ?_, ?_, fun s => rfl⟩
  · intro toml l h
    simp [shellEnvironmentPolicyFromToml, h]
  · intro toml l h
    simp [shellEnvironmentPolicyFromToml, h]

/-- Witness for C8: concrete exclude and include-only lists are
compiled elementwise into case-insensitive patterns. -/
theorem C8_policy_defaults_and_patterns_witness :
    (shellEnvironmentPolicyFromToml c8toml).exclude =
      [EnvironmentVariablePattern.newCaseInsensitive "FOO*"] ∧
    (shellEnvironmentPolicyFromToml c8toml).include_only =
      [EnvironmentVariablePattern.newCaseInsensitive "PATH",
        EnvironmentVariablePattern.newCaseInsensitive "HO?E"] := by
  constructor
  · have h := C8_policy_defaults_and_patterns.2.1 c8toml ["FOO*"] rfl
    simpa using h
  · have h := C8_policy_defaults_and_patterns.2.2.1 c8toml ["PATH", "HO?E"] rfl
    simpa using h
